import Mathlib

/-!
Verification of CoreView3D backend behaviour against its specification.

Numeric cells are modelled over `ℚ` (the source computes with binary
floating point; all claims checked here are either structural or decided
at inputs where the float computation is exact).  Library primitives with
no closed rational form (trigonometric functions, Euclidean norm,
`atan2`) are supplied as explicit oracle parameters so that every
definition stays executable.
-/

namespace CoreView3D

instance {ε α : Type _} [DecidableEq ε] [DecidableEq α] : DecidableEq (Except ε α) := fun a b =>
  match a, b with
  | .ok x, .ok y => decidable_of_iff (x = y) (by simp)
  | .error x, .error y => decidable_of_iff (x = y) (by simp)
  | .ok _, .error _ => isFalse (by simp)
  | .error _, .ok _ => isFalse (by simp)

/-! ## Tabular (CSV) parser — `src/backend/src/coreview3d/parsers/csv_parser.py` -/

/-- A raw spreadsheet cell as seen after `pd.read_csv`: a numeric value, a
non-numeric string, or a missing value (NaN). -/
inductive Cell where
  | num (q : ℚ)
  | str (s : String)
  | empty
deriving DecidableEq

/-- A data frame: column labels plus rows of cells in column order. -/
structure DF where
  cols : List String
  rows : List (List Cell)
deriving DecidableEq

/-- Python `str.strip()` (whitespace removed from both ends), implemented
over the character list so that it evaluates inside the kernel. -/
def pyStrip (s : String) : String :=
  String.mk (((s.data.dropWhile Char.isWhitespace).reverse.dropWhile Char.isWhitespace).reverse)

/-- `col.lower().replace('_', '').replace('-', '').replace(' ', '')` from
`normalize_column_names`. -/
def pyNormalizeKey (s : String) : String :=
  String.mk ((s.data.map Char.toLower).filter fun c => c ≠ '_' ∧ c ≠ '-' ∧ c ≠ ' ')

/-- The `'collar'` entry of `mapping_table` in `normalize_column_names`
(source order preserved). -/
def collarMapping : List (String × String) :=
  [("holeid", "Hole_ID"), ("hole_id", "Hole_ID"), ("dhid", "Hole_ID"), ("bh_id", "Hole_ID"),
   ("easting", "East"), ("x", "East"), ("utmx", "East"),
   ("northing", "North"), ("y", "North"), ("utmy", "North"),
   ("elevation", "Elevation"), ("elev", "Elevation"), ("z", "Elevation"), ("rl", "Elevation"),
   ("maxdepth", "Max_Depth"), ("depth", "Max_Depth"), ("length", "Max_Depth"), ("eoh", "Max_Depth"),
   ("azi", "Azimuth"), ("azimut", "Azimuth"), ("bearing", "Azimuth"),
   ("inclination", "Dip"), ("incl", "Dip"), ("plunge", "Dip")]

/-- The `'survey'` entry of `mapping_table`. -/
def surveyMapping : List (String × String) :=
  [("holeid", "Hole_ID"), ("hole_id", "Hole_ID"), ("dhid", "Hole_ID"), ("bh_id", "Hole_ID"),
   ("length", "Depth"), ("depth_m", "Depth"), ("md", "Depth"), ("along_hole", "Depth"),
   ("azi", "Azimuth"), ("azimut", "Azimuth"), ("bearing", "Azimuth"),
   ("inclination", "Dip"), ("incl", "Dip"), ("plunge", "Dip")]

/-- The `'assay'` entry of `mapping_table`. -/
def assayMapping : List (String × String) :=
  [("holeid", "Hole_ID"), ("hole_id", "Hole_ID"), ("dhid", "Hole_ID"), ("bh_id", "Hole_ID"),
   ("from_m", "From"), ("from_depth", "From"), ("depth_from", "From"),
   ("to_m", "To"), ("to_depth", "To"), ("depth_to", "To"),
   ("lith", "Lithology"), ("litho", "Lithology"), ("rock_type", "Lithology")]

/-- Rename one (whitespace-stripped) column label through a synonym map:
the first key whose normalized spelling matches is taken (`break` in the
source); a matching column is renamed to the key's value. -/
def renameCol (mapping : List (String × String)) (col : String) : String :=
  match mapping.find? (fun kv => pyNormalizeKey kv.1 = pyNormalizeKey col) with
  | some kv => if col = kv.2 then col else kv.2
  | none => col

/-- `normalize_column_names(df, table_type)`: strip whitespace from the
labels, then rename each through the synonym map of the table kind
(unknown kinds are returned unchanged). -/
def normalize_column_names (df : DF) (table_type : String) : DF :=
  let cols := df.cols.map pyStrip
  let mapping :=
    if table_type = "collar" then some collarMapping
    else if table_type = "survey" then some surveyMapping
    else if table_type = "assay" then some assayMapping
    else none
  match mapping with
  | none => { df with cols := cols }
  | some m => { df with cols := cols.map (renameCol m) }

/-- Structured parser errors (the source raises `ValueError` with a
formatted message; the payload here carries the same information). -/
inductive ParseErr where
  | missingColumns (missing : List String) (found : List String)
  | nonNumeric (nanCounts : List (String × Nat))
  | dipRange
  | azimuthRange
  | emptyCollarAfterCleaning
deriving DecidableEq

def DrillholeParser.COLLAR_REQUIRED : List String := ["Hole_ID", "East", "North", "Elevation"]

/-- Index of the first column with the given label. -/
def DF.colIdx (df : DF) (name : String) : Option Nat :=
  df.cols.findIdx? (· = name)

def cellAt (row : List Cell) : Option Nat → Cell
  | some j => row.getD j Cell.empty
  | none => Cell.empty

/-- The cells of one column, top to bottom. -/
def DF.colVals (df : DF) (name : String) : List Cell :=
  df.rows.map fun r => cellAt r (df.colIdx name)

/-- `pd.to_numeric(x, errors='coerce')` on one cell: non-numeric values
become missing. -/
def toNum : Cell → Option ℚ
  | .num q => some q
  | _ => none

/-- Apply a cell transformation to every cell of one column. -/
def DF.setCol (df : DF) (name : String) (f : Cell → Cell) : DF :=
  { df with rows := df.rows.map fun r =>
      r.mapIdx fun j c => if df.colIdx name = some j then f c else c }

/-- `df[col] = pd.to_numeric(df[col], errors='coerce')`. -/
def DF.coerceCol (df : DF) (name : String) : DF :=
  df.setCol name fun c => match toNum c with
    | some q => .num q
    | none => .empty

/-- Append a constant-valued column. -/
def DF.addCol (df : DF) (name : String) (c : Cell) : DF :=
  ⟨df.cols ++ [name], df.rows.map (· ++ [c])⟩

def isNaCell : Cell → Bool
  | .empty => true
  | _ => false

/-- `df[col].isna().any()` (after coercion of that column). -/
def DF.colHasNaN (df : DF) (name : String) : Bool :=
  (df.colVals name).any isNaCell

/-- `df[col].isna().sum()`. -/
def DF.nanCount (df : DF) (name : String) : Nat :=
  ((df.colVals name).filter isNaCell).length

/-- `(df[col] > 0).all()` with pandas semantics: comparing NaN yields
False; the all() of an empty column is True. -/
def DF.allPos (df : DF) (name : String) : Bool :=
  (df.colVals name).all fun c => match c with
    | .num q => decide (0 < q)
    | _ => false

/-- `(df[col] ⋄ bound).any()` with pandas semantics (NaN compares False). -/
def DF.anyCmp (df : DF) (name : String) (p : ℚ → Bool) : Bool :=
  (df.colVals name).any fun c => match c with
    | .num q => p q
    | _ => false

/-- `DrillholeParser.parse_collar` after `pd.read_csv`: normalization,
required-column validation, numeric coercion of East/North/Elevation
(fatal NaN check), defaulting of Max_Depth/Azimuth/Dip, the all-positive
dip flip, and the dip/azimuth range validations. -/
def parse_collar (df0 : DF) : Except ParseErr DF :=
  let df := normalize_column_names df0 "collar"
  let missing := DrillholeParser.COLLAR_REQUIRED.filter fun c => ¬ df.cols.contains c
  if missing ≠ [] then .error (.missingColumns missing df.cols) else
  let df := ((df.coerceCol "East").coerceCol "North").coerceCol "Elevation"
  let df := ["Max_Depth", "Azimuth", "Dip"].foldl
    (fun d c => if d.cols.contains c then d.coerceCol c else d) df
  if df.colHasNaN "East" ∨ df.colHasNaN "North" ∨ df.colHasNaN "Elevation" then
    .error (.nonNumeric ((["East", "North", "Elevation"].map
      fun c => (c, df.nanCount c)).filter fun p => p.2 ≠ 0))
  else
  let df := if df.cols.contains "Max_Depth" then df else df.addCol "Max_Depth" (.num 0)
  let df := if df.cols.contains "Azimuth" then df else df.addCol "Azimuth" (.num 0)
  let df :=
    if ¬ df.cols.contains "Dip" then df.addCol "Dip" (.num (-90))
    else if df.allPos "Dip" then
      df.setCol "Dip" fun c => match c with
        | .num q => .num (-q)
        | c => c
    else df
  if (¬ (df.colVals "Dip").all isNaCell) ∧
      (df.anyCmp "Dip" (fun q => decide (0 < q)) ∨ df.anyCmp "Dip" (fun q => decide (q < -90))) then
    .error .dipRange
  else
  if (¬ (df.colVals "Azimuth").all isNaCell) ∧
      (df.anyCmp "Azimuth" (fun q => decide (q < 0)) ∨ df.anyCmp "Azimuth" (fun q => decide (360 ≤ q))) then
    .error .azimuthRange
  else
  .ok df

/-! ### Excel collar cleaning —
`ExcelDrillholeParser._find_and_parse_collar`, rows after column mapping -/

/-- One collar-sheet row after column mapping (HOLEID/EAST/NORTH/ELEV). -/
structure XRow where
  holeid : Cell
  east : Cell
  north : Cell
  elev : Cell
deriving DecidableEq

/-- `astype(str).str.strip()` on a HOLEID cell (NaN stringifies to "nan",
so HOLEID never triggers the dropna). -/
def pyStr : Cell → String
  | .str s => pyStrip s
  | .num q => toString q
  | .empty => "nan"

/-- The row-cleaning tail of `_find_and_parse_collar`: coerce
EAST/NORTH/ELEV to numeric, drop rows with a missing required value,
and fail if nothing is left. -/
def excel_clean_collar (rows : List XRow) : Except ParseErr (List (String × ℚ × ℚ × ℚ)) :=
  let cleaned := rows.filterMap fun r =>
    match toNum r.east, toNum r.north, toNum r.elev with
    | some e, some n, some z => some (pyStr r.holeid, e, n, z)
    | _, _, _ => none
  if cleaned.isEmpty then .error .emptyCollarAfterCleaning else .ok cleaned

/-! ## Trajectory geometry — `src/backend/src/coreview3d/geometry/trajectory.py`

Rows carry the normalized column names the engine expects (HOLEID, EAST,
NORTH, ELEV, and the optional MAX_DEPTH/AZIMUTH/DIP read through
`collar.get(..., default)`). -/

/-- A collar row as consumed by the geometry engines. -/
structure Collar where
  holeid : String
  east : ℚ
  north : ℚ
  elev : ℚ
  max_depth : Option ℚ := none
  azimuth : Option ℚ := none
  dip : Option ℚ := none
deriving DecidableEq

/-- A survey row (HOLEID, DEPTH, AZIMUTH, DIP). -/
structure SurveyRow where
  holeid : String
  depth : ℚ
  azimuth : ℚ
  dip : ℚ
deriving DecidableEq

/-- Oracle for the trigonometric primitives the source takes from numpy
(`np.radians`, `np.sin`, `np.cos`); keeping them abstract keeps every
definition kernel-executable. -/
structure Trig where
  radians : ℚ → ℚ
  sin : ℚ → ℚ
  cos : ℚ → ℚ

/-- Insert into a sorted list (structural recursion, so it reduces in the
kernel). -/
def insortBy (le : α → α → Bool) (x : α) : List α → List α
  | [] => [x]
  | y :: ys => if le x y then x :: y :: ys else y :: insortBy le x ys

/-- Insertion sort, modelling `DataFrame.sort_values`. -/
def sortBy (le : α → α → Bool) : List α → List α
  | [] => []
  | x :: xs => insortBy le x (sortBy le xs)

/-- `calculate_single_trajectory(collar, survey_df)`: with no survey rows,
one straight collar-to-toe segment from the collar orientation; with
survey rows, straight segments per positive-length depth interval using
each row's own azimuth/dip. -/
def calculate_single_trajectory (T : Trig) (collar : Collar)
    (survey_df : Option (List SurveyRow)) : List (ℚ × ℚ × ℚ) :=
  let east := collar.east
  let north := collar.north
  let elev := collar.elev
  let collar_azimuth := collar.azimuth.getD 0
  let collar_dip := collar.dip.getD (-90)
  match survey_df.getD [] with
  | [] =>
    let max_depth := collar.max_depth.getD 100
    let azimuth_rad := T.radians collar_azimuth
    let incl_rad := if 0 ≤ collar_dip then T.radians collar_dip else T.radians (180 + collar_dip)
    let horiz := max_depth * T.sin incl_rad
    let dx := horiz * T.sin azimuth_rad
    let dy := horiz * T.cos azimuth_rad
    let dz := (-max_depth) * T.cos incl_rad
    [(east, north, elev), (east + dx, north + dy, elev + dz)]
  | rows =>
    let survey_sorted := sortBy (fun a b => decide (a.depth ≤ b.depth)) rows
    let step := fun (st : List (ℚ × ℚ × ℚ) × ℚ × ℚ × ℚ × ℚ) (row : SurveyRow) =>
      let (acc, cx, cy, cz, prev) := st
      let interval := row.depth - prev
      if interval ≤ 0 then st
      else
        let azimuth_rad := T.radians row.azimuth
        let incl_rad := if 0 ≤ row.dip then T.radians row.dip else T.radians (180 + row.dip)
        let horiz := interval * T.sin incl_rad
        let nx := cx + horiz * T.sin azimuth_rad
        let ny := cy + horiz * T.cos azimuth_rad
        let nz := cz + (-interval) * T.cos incl_rad
        (acc ++ [(nx, ny, nz)], nx, ny, nz, row.depth)
    let res := survey_sorted.foldl step ([(east, north, elev)], east, north, elev, 0)
    if res.1.length < 2 then res.1 ++ [(east, north, elev - collar.max_depth.getD 100)]
    else res.1

/-! ## Session persistence — `src/backend/src/coreview3d/store/store.py`

`pickle.dumps`/`pickle.loads` and `json.dumps`/`json.loads` are mutually
inverse on the data they are given, so serialization is modelled as the
identity on the payload; what the store records is the `None`-vs-value
structure the source produces (`_serialize_dataframe` stores `None` for
an absent or empty table, and an untruthy trajectory list is stored as
`None`). -/

/-- An assay/interval row with the engine's normalized columns
(HOLEID, FROM, TO and the optional LITHOLOGY/AU_PPM/CU_PCT). -/
structure AssayRow where
  holeid : String
  fromDepth : ℚ
  toDepth : ℚ
  lithology : Option String := none
  au_ppm : Option ℚ := none
  cu_pct : Option ℚ := none
deriving DecidableEq

/-- One element of the computed-trajectories list persisted with a
session. -/
structure TrajEntry where
  hole_id : String
  points : List (ℚ × ℚ × ℚ)
deriving DecidableEq

/-- The `SessionData` dataclass: a collar table plus optional survey,
assay and trajectory payloads. -/
structure SessionData where
  collar_df : List Collar
  survey_df : Option (List SurveyRow) := none
  assays_df : Option (List AssayRow) := none
  trajectories : Option (List TrajEntry) := none
deriving DecidableEq

/-- The metadata JSON recomputed on every save. -/
structure SessionMetadata where
  total_holes : Nat
  has_survey : Bool
  has_assays : Bool
deriving DecidableEq

/-- One row of the `sessions` table (timestamps omitted: wall-clock
values are not modelled). -/
structure StoredRow where
  metadata : SessionMetadata
  collar_data : Option (List Collar)
  survey_data : Option (List SurveyRow)
  assays_data : Option (List AssayRow)
  trajectories : Option (List TrajEntry)
deriving DecidableEq

/-- The `sessions` table keyed by `session_id`. -/
abbrev SessionStore := List (String × StoredRow)

/-- `SELECT ... FROM sessions WHERE session_id = ?` (the primary key
matches at most one row). -/
def storeFind (db : SessionStore) (sid : String) : Option StoredRow :=
  (db.find? fun p => p.1 == sid).map (·.2)

/-- `_serialize_dataframe`: `None` for an absent or empty table, the
table itself otherwise. -/
def serialize_dataframe (df : Option (List α)) : Option (List α) :=
  match df with
  | none => none
  | some l => if l.isEmpty then none else some l

/-- The row written by `save_session_data` (metadata recomputed from the
incoming data; `json.dumps(data.trajectories) if data.trajectories else
None` stores `None` for an absent or empty list). -/
def mkStoredRow (d : SessionData) : StoredRow where
  metadata := ⟨d.collar_df.length, d.survey_df.isSome, d.assays_df.isSome⟩
  collar_data := serialize_dataframe (some d.collar_df)
  survey_data := serialize_dataframe d.survey_df
  assays_data := serialize_dataframe d.assays_df
  trajectories :=
    match d.trajectories with
    | some l => if l.isEmpty then none else some l
    | none => none

/-- `save_session_data`: update the existing row in place when the id
exists (`UPDATE`), append a new row otherwise (`INSERT`). -/
def save_session_data (db : SessionStore) (sid : String) (d : SessionData) : SessionStore :=
  if (storeFind db sid).isSome then
    db.map fun p => if p.1 = sid then (sid, mkStoredRow d) else p
  else db ++ [(sid, mkStoredRow d)]

/-- What `get_session_data` reconstructs: a `SessionData` whose fields
may each be `None` (a deserialized blob, or `None` where no blob was
stored). -/
structure LoadedSession where
  collar_df : Option (List Collar)
  survey_df : Option (List SurveyRow)
  assays_df : Option (List AssayRow)
  trajectories : Option (List TrajEntry)
deriving DecidableEq

/-- `get_session_data`: `None` when no row matches, otherwise the
deserialized column values. -/
def get_session_data (db : SessionStore) (sid : String) : Option LoadedSession :=
  (storeFind db sid).map fun r =>
    ⟨r.collar_data, r.survey_data, r.assays_data, r.trajectories⟩

/-! ## Cross-section request model —
`src/backend/src/coreview3d/models/cross_section.py` -/

/-- `CrossSectionRequest` exactly as declared in the source model:
`session_id`, `xy_start`, `xy_stop`, `hole_ids` required, `tolerance`
defaulting to 100.0 with no declared bound. -/
structure CrossSectionRequest where
  session_id : String
  xy_start : ℚ × ℚ
  xy_stop : ℚ × ℚ
  hole_ids : List String
  tolerance : ℚ
deriving DecidableEq

/-- The raw payload handed to the model: each declared field either
present or absent. -/
structure RawRequest where
  session_id : Option String := none
  xy_start : Option (ℚ × ℚ) := none
  xy_stop : Option (ℚ × ℚ) := none
  hole_ids : Option (List String) := none
  tolerance : Option ℚ := none

inductive ValidationErr where
  | missingField
deriving DecidableEq

/-- Pydantic validation of the source model: every field without a
default must be present; `tolerance` takes its default when absent and is
accepted unconditionally (the model declares no bound on it). -/
def mkCrossSectionRequest (r : RawRequest) : Except ValidationErr CrossSectionRequest :=
  match r.session_id, r.xy_start, r.xy_stop, r.hole_ids with
  | some sid, some a, some b, some hs => .ok ⟨sid, a, b, hs, r.tolerance.getD 100⟩
  | _, _, _, _ => .error .missingField

/-! ## Cross-section geometry —
`src/backend/src/coreview3d/geometry/cross_section.py` -/

abbrev Vec2 := ℚ × ℚ

def dot (a b : Vec2) : ℚ := a.1 * b.1 + a.2 * b.2

def vsub (a b : Vec2) : Vec2 := (a.1 - b.1, a.2 - b.2)

def vadd (a b : Vec2) : Vec2 := (a.1 + b.1, a.2 + b.2)

def smul (c : ℚ) (v : Vec2) : Vec2 := (c * v.1, c * v.2)

def sqDist (a b : Vec2) : ℚ := (a.1 - b.1) ^ 2 + (a.2 - b.2) ^ 2

inductive GeomErr where
  | needTwoHoles (got : Nat)
  | lineTooShort
  | noHolesInTolerance
deriving DecidableEq

/-- Total minimum of a rational list (`min(list)` in the source is only
ever applied to non-empty lists). -/
def qListMin : List ℚ → ℚ
  | [] => 0
  | x :: xs => xs.foldl min x

/-- Total maximum of a rational list. -/
def qListMax : List ℚ → ℚ
  | [] => 0
  | x :: xs => xs.foldl max x

/-- `collar_df[collar_df['HOLEID'].isin(hole_ids)]`. -/
def selectedCollars (collar_df : List Collar) (hole_ids : List String) : List Collar :=
  collar_df.filter fun c => decide (c.holeid ∈ hole_ids)

/-- `coords.mean(axis=0)`. -/
def centroidOf (coords : List Vec2) : Vec2 :=
  ((coords.map (·.1)).sum / (coords.length : ℚ), (coords.map (·.2)).sum / (coords.length : ℚ))

/-- The centered 2D collar coordinates (`coords - centroid`). -/
def centeredCoords (sel : List Collar) : List Vec2 :=
  let coords := sel.map fun c => ((c.east, c.north) : Vec2)
  coords.map fun p => vsub p (centroidOf coords)

/-- `np.cov(centered.T)` as the `(xx, xy, yy)` entries of the symmetric
2×2 sample covariance matrix (divisor `n − 1`). -/
def covOf (centered : List Vec2) (n : ℚ) : ℚ × ℚ × ℚ :=
  ((centered.map fun p => p.1 * p.1).sum / (n - 1),
   (centered.map fun p => p.1 * p.2).sum / (n - 1),
   (centered.map fun p => p.2 * p.2).sum / (n - 1))

/-- `v` is a unit eigenvector of the covariance matrix of `centered` for
its larger eigenvalue `lam` — what `np.linalg.eig` plus
`argmax(eigenvalues)` hands the source (for a symmetric 2×2 matrix the
two eigenvalues sum to the trace, so the larger one is at least half the
trace). -/
def IsPrincipalEigen (centered : List Vec2) (n : ℚ) (lam : ℚ) (v : Vec2) : Prop :=
  (covOf centered n).1 * v.1 + (covOf centered n).2.1 * v.2 = lam * v.1 ∧
  (covOf centered n).2.1 * v.1 + (covOf centered n).2.2 * v.2 = lam * v.2 ∧
  v.1 ^ 2 + v.2 ^ 2 = 1 ∧
  (covOf centered n).1 + (covOf centered n).2.2 ≤ 2 * lam

/-- `centered @ principal_direction`: the projections of the centered
collar coordinates on the principal direction. -/
def projectionsOf (sel : List Collar) (v : Vec2) : List ℚ :=
  (centeredCoords sel).map fun p => dot p v

/-- The A/B endpoints computed from the selected collars and the
principal direction: project the centered coordinates on `v`, take
min/max projection, widen both ends by 10% of the span, and map back
through centroid + direction. -/
def lineEndpoints (sel : List Collar) (v : Vec2) : Vec2 × Vec2 :=
  let centroid := centroidOf (sel.map fun c => ((c.east, c.north) : Vec2))
  let projections := projectionsOf sel v
  let min_proj := qListMin projections
  let max_proj := qListMax projections
  let margin := (max_proj - min_proj) * (1 / 10)
  (vadd centroid (smul (min_proj - margin) v), vadd centroid (smul (max_proj + margin) v))

/-- `calculate_line_from_holes(collar_df, hole_ids)`: fewer than 2
matching collars raises "Need at least 2 holes"; otherwise the PCA line
endpoints are returned.  `lam`/`v` stand for the eigen-decomposition
result obtained from `np.linalg.eig`. -/
def calculate_line_from_holes (collar_df : List Collar) (hole_ids : List String)
    (lam : ℚ) (v : Vec2) : Except GeomErr (Vec2 × Vec2) :=
  let selected := selectedCollars collar_df hole_ids
  if selected.length < 2 then .error (.needTwoHoles selected.length)
  else
    let _ := lam
    .ok (lineEndpoints selected v)

/-- Numeric primitives with no closed rational form, abstracted exactly
where the source calls numpy: `np.radians`/`np.sin`/`np.cos`,
`np.linalg.norm`, and `degrees(arctan2(..)) % 360`. -/
structure NumLib extends Trig where
  norm : Vec2 → ℚ
  atan2deg : ℚ → ℚ → ℚ

/-- One 2D trace point `{depth_along_hole, x_along_section, y_elevation}`. -/
structure TracePt where
  depth_along_hole : ℚ
  x_along_section : ℚ
  y_elevation : ℚ
deriving DecidableEq

/-- One emitted interval record (`from`/`to` plus the optional fields
that are present and non-missing). -/
structure Interval where
  fromDepth : ℚ
  toDepth : ℚ
  lithology : Option String := none
  au_ppm : Option ℚ := none
  cu_pct : Option ℚ := none
deriving DecidableEq

/-- `_get_hole_intervals(hole_id, assays_df)`: the rows for the hole, or
an absent result when there are none. -/
def get_hole_intervals (hole_id : String) (assays_df : List AssayRow) : Option (List Interval) :=
  let hole_assays := assays_df.filter fun a => a.holeid = hole_id
  if hole_assays.isEmpty then none
  else some (hole_assays.map fun r => ⟨r.fromDepth, r.toDepth, r.lithology, r.au_ppm, r.cu_pct⟩)

/-- `direction / length` for the section line. -/
def directionNorm (N : NumLib) (A B : Vec2) : Vec2 :=
  let direction := vsub B A
  let len := N.norm direction
  (direction.1 / len, direction.2 / len)

/-- `distance_along = dot(collar − A, direction_norm)`. -/
def distanceAlong (N : NumLib) (A B : Vec2) (c : Collar) : ℚ :=
  dot (vsub (c.east, c.north) A) (directionNorm N A B)

/-- The collar's perpendicular distance to the section line
(`norm(collar − closest_point)`). -/
def distanceFrom (N : NumLib) (A B : Vec2) (c : Collar) : ℚ :=
  let dirN := directionNorm N A B
  let dAlong := dot (vsub (c.east, c.north) A) dirN
  let closest := vadd A (smul dAlong dirN)
  N.norm (vsub (c.east, c.north) closest)

/-- `_calculate_hole_trace`: the straight two-point trace when the hole
has no survey rows, otherwise one projected point per positive-length
survey interval with the collar point inserted first. -/
def calculate_hole_trace (N : NumLib) (collar : Collar) (survey_df : Option (List SurveyRow))
    (point_A : Vec2) (direction_norm : Vec2) : List TracePt :=
  let collar_pos : Vec2 := (collar.east, collar.north)
  let collar_elev := collar.elev
  let noSurvey :=
    match survey_df with
    | none => true
    | some sdf => decide (∀ r ∈ sdf, r.holeid ≠ collar.holeid)
  if noSurvey then
    let max_depth := collar.max_depth.getD 100
    let distance_along := dot (vsub collar_pos point_A) direction_norm
    [⟨0, distance_along, collar_elev⟩, ⟨max_depth, distance_along, collar_elev - max_depth⟩]
  else
    let hole_survey := sortBy (fun a b => decide (a.depth ≤ b.depth))
      ((survey_df.getD []).filter fun r => r.holeid = collar.holeid)
    let step := fun (st : List TracePt × Vec2 × ℚ × ℚ) (row : SurveyRow) =>
      let (acc, pos, elev, prev) := st
      let interval_length := row.depth - prev
      if interval_length ≤ 0 then st
      else
        let azimuth := N.radians row.azimuth
        let dip_rad := N.radians (90 - row.dip)
        let delta_east := interval_length * N.sin dip_rad * N.sin azimuth
        let delta_north := interval_length * N.sin dip_rad * N.cos azimuth
        let delta_elev := (-interval_length) * N.cos dip_rad
        let pos2 := vadd pos (delta_east, delta_north)
        let elev2 := elev + delta_elev
        let distance_along := dot (vsub pos2 point_A) direction_norm
        (acc ++ [⟨row.depth, distance_along, elev2⟩], pos2, elev2, row.depth)
    let res := hole_survey.foldl step ([], collar_pos, collar_elev, 0)
    let collar_distance := dot (vsub collar_pos point_A) direction_norm
    ⟨0, collar_distance, collar_elev⟩ :: res.1

/-- One element of the returned `drillholes` list. -/
structure DrillholeEntry where
  hole_id : String
  distance_from_line : ℚ
  distance_along_line : ℚ
  collar_elevation : ℚ
  trace : List TracePt
  intervals : Option (List Interval)
deriving DecidableEq

structure SectionBounds where
  min_distance : ℚ
  max_distance : ℚ
  min_elevation : ℚ
  max_elevation : ℚ
deriving DecidableEq

structure SectionLine where
  point_A : Vec2
  point_B : Vec2
  direction : Vec2
  length : ℚ
  azimuth : ℚ
deriving DecidableEq

structure SectionResult where
  section_line : SectionLine
  drillholes : List DrillholeEntry
  bounds : SectionBounds
deriving DecidableEq

/-- The hole filter of `calculate_cross_section`: `if hole_ids:` is
Python truthiness, so an absent *or empty* id list keeps every collar
row. -/
def workingDf (collar_df : List Collar) (hole_ids : Option (List String)) : List Collar :=
  match hole_ids with
  | some ids => if ids.isEmpty then collar_df else collar_df.filter fun c => decide (c.holeid ∈ ids)
  | none => collar_df

/-- A collar survives the per-hole loop: its perpendicular distance is
within tolerance (`continue` otherwise) and its trace is non-empty
(`continue` otherwise). -/
def holePasses (N : NumLib) (survey_df : Option (List SurveyRow)) (A B : Vec2) (tol : ℚ)
    (c : Collar) : Bool :=
  decide (distanceFrom N A B c ≤ tol)
    && !(calculate_hole_trace N c survey_df A (directionNorm N A B)).isEmpty

/-- The collars included in the cross-section. -/
def includedHoles (N : NumLib) (collar_df : List Collar) (survey_df : Option (List SurveyRow))
    (hole_ids : Option (List String)) (A B : Vec2) (tol : ℚ) : List Collar :=
  (workingDf collar_df hole_ids).filter (holePasses N survey_df A B tol)

/-- The per-hole payload appended to `drillholes_data`. -/
def mkEntry (N : NumLib) (survey_df : Option (List SurveyRow))
    (assays_df : Option (List AssayRow)) (A B : Vec2) (c : Collar) : DrillholeEntry :=
  ⟨c.holeid, distanceFrom N A B c, distanceAlong N A B c, c.elev,
   calculate_hole_trace N c survey_df A (directionNorm N A B),
   match assays_df with
   | some adf => get_hole_intervals c.holeid adf
   | none => none⟩

/-- `calculate_cross_section`: degenerate-line check, hole filtering by
tolerance, per-hole traces/intervals, empty-result check and viewport
bounds. -/
def calculate_cross_section (N : NumLib) (collar_df : List Collar)
    (survey_df : Option (List SurveyRow)) (assays_df : Option (List AssayRow))
    (hole_ids : Option (List String)) (point_A point_B : Vec2) (tol : ℚ) :
    Except GeomErr SectionResult :=
  let direction := vsub point_B point_A
  let len := N.norm direction
  if len < 1 then .error .lineTooShort
  else
    let direction_norm := (direction.1 / len, direction.2 / len)
    let azimuth := N.atan2deg direction.1 direction.2
    let drillholes_data := (includedHoles N collar_df survey_df hole_ids point_A point_B tol).map
      (mkEntry N survey_df assays_df point_A point_B)
    if drillholes_data.isEmpty then .error .noHolesInTolerance
    else
      let all_distances := drillholes_data.map (·.distance_along_line)
      let all_elevations := (drillholes_data.map fun h => h.trace.map (·.y_elevation)).flatten
      .ok ⟨⟨point_A, point_B, direction_norm, len, azimuth⟩,
           drillholes_data,
           ⟨qListMin all_distances, qListMax all_distances,
            qListMin all_elevations, qListMax all_elevations⟩⟩

/-- A concrete instantiation of the numeric oracle used for witnesses
and counterexamples: linear stand-ins that agree with the real
`radians`/`sin`/`cos`/`norm` at every input the examples evaluate them
on (`sin 90° = 1`, `cos 90° = 0`, `‖(100,0)‖ = 100`, `‖(0,0)‖ = 0`). -/
def sampleLib : NumLib where
  radians := fun x => x
  sin := fun x => x / 90
  cos := fun x => 1 - x / 90
  norm := fun p => p.1 + p.2
  atan2deg := fun _ _ => 0

/-! ## Repository summarizer — `src/backend/scripts/summarize.py`

A file on disk is modelled by the outcome of reading, parsing and
walking it: unreadable after all three encodings, a syntax error with
message/line/column, a non-`SyntaxError` parse failure, a failure during
the AST walk, or the collected classes/functions/imports. -/

inductive FileModel where
  | unreadable (msg : String)
  | synErr (msg : String) (lineno offset : Nat)
  | parseExc (msg : String)
  | walkExc (msg : String)
  | parsed (classes : List (String × List String)) (funcs : List String)
      (imports : List String)
deriving DecidableEq

/-- The per-file dictionary `summarize_file` returns (the verbose-mode
`debug` lines are not modelled). -/
structure FileRecord where
  path : String
  error : Option String
  classes : List (String × List String)
  functions : List String
  imports : List String
deriving DecidableEq

/-- `summarize_file(path)`: error records for read/parse/walk failures
(a `SyntaxError` keeps the message, `lineno` and `offset`), else the
collected inventory with imports deduplicated and sorted. -/
def summarize_file (path : String) (m : FileModel) : FileRecord :=
  match m with
  | .unreadable msg => ⟨path, some ("read_error: " ++ msg), [], [], []⟩
  | .synErr msg lineno offset =>
      ⟨path, some ("SyntaxError: " ++ msg ++ " (lineno=" ++ toString lineno
        ++ ", offset=" ++ toString offset ++ ")"), [], [], []⟩
  | .parseExc msg => ⟨path, some ("parse_error: " ++ msg), [], [], []⟩
  | .walkExc msg => ⟨path, some ("ast_walk_error: " ++ msg), [], [], []⟩
  | .parsed cs fs is => ⟨path, none, cs, fs, sortBy (fun a b => decide (a ≤ b)) is.eraseDups⟩

/-- A candidate file of the walk: its path, its path components, and its
content model. -/
structure RepoFile where
  path : String
  parts : List String
  model : FileModel
deriving DecidableEq

def SKIP_DIRS : List String := [".git", "venv", "env", "__pycache__", "node_modules", ".venv"]

def chListHasPre : List Char → List Char → Bool
  | [], _ => true
  | _ :: _, [] => false
  | p :: ps, x :: xs => p = x && chListHasPre ps xs

def chListHasSub (pat : List Char) : List Char → Bool
  | [] => pat.isEmpty
  | x :: xs => chListHasPre pat (x :: xs) || chListHasSub pat xs

/-- Python `pat in s` on strings. -/
def strContainsSub (s pat : String) : Bool :=
  chListHasSub pat.data s.data

/-- The run footer (`elapsed_seconds` is wall-clock and not modelled). -/
structure RunMeta where
  root : String
  files_processed : Nat
  errors_count : Nat
deriving DecidableEq

structure RepoResult where
  summary : List FileRecord
  meta : RunMeta
  errors : List FileRecord
deriving DecidableEq

/-- The per-file loop of `summarize_repo`: skip ignored directories and
filter mismatches, stop at a truthy `max_files` cap, and accumulate each
processed record (error records also into `errors`). -/
def summarizeLoop (mf : Option Nat) (inc : List String) :
    List RepoFile → Nat → List FileRecord → List FileRecord →
      Nat × List FileRecord × List FileRecord
  | [], total, res, errs => (total, res, errs)
  | f :: rest, total, res, errs =>
    if f.parts.any fun part => decide (part ∈ SKIP_DIRS) then
      summarizeLoop mf inc rest total res errs
    else if inc ≠ [] ∧ ¬ (inc.any fun p => strContainsSub f.path p) then
      summarizeLoop mf inc rest total res errs
    else if (match mf with
        | some m => decide (m ≠ 0) && decide (m ≤ total)
        | none => false : Bool) then
      (total, res, errs)
    else
      let info := summarize_file f.path f.model
      let errs2 := if info.error.isSome then errs ++ [info] else errs
      summarizeLoop mf inc rest (total + 1) (res ++ [info]) errs2

/-- `summarize_repo`: fatal only when the root cannot be enumerated;
otherwise the loop result with the footer (`errors_count` is the length
of the accumulated error list). -/
def summarize_repo (rootExists : Bool) (root : String) (files : List RepoFile)
    (max_files : Option Nat) (include_patterns : List String) : Except String RepoResult :=
  if !rootExists then .error "FileNotFoundError"
  else
    let res := summarizeLoop max_files include_patterns files 0 [] []
    .ok ⟨res.2.1, ⟨root, res.1, res.2.2.length⟩, res.2.2⟩


theorem find_replace_of_mem (db : SessionStore) (sid : String) (row : StoredRow)
    (h : (db.find? fun p => p.1 == sid).isSome) :
    ((db.map fun p => if p.1 = sid then (sid, row) else p).find? fun p => p.1 == sid)
      = some (sid, row) := by
  induction db with
  | nil => simp at h
  | cons hd tl ih =>
    obtain ⟨k, v⟩ := hd
    by_cases hk : k = sid
    · subst hk
      simp [List.find?]
    · have hb : ((k, v).1 == sid) = false := by simp [hk]
      have hif : (if ((k, v) : String × StoredRow).1 = sid then (sid, row) else (k, v))
          = (k, v) := if_neg hk
      simp only [List.map_cons, hif]
      simp only [List.find?, hb] at h ⊢
      exact ih h

theorem find_append_single (db : SessionStore) (sid : String) (row : StoredRow)
    (h : (db.find? fun p => p.1 == sid) = none) :
    ((db ++ [(sid, row)]).find? fun p => p.1 == sid) = some (sid, row) := by
  rw [List.find?_append, h]
  simp [List.find?]

/-- The saved row is what a subsequent select of the same id finds. -/
theorem storeFind_save (db : SessionStore) (sid : String) (d : SessionData) :
    storeFind (save_session_data db sid d) sid = some (mkStoredRow d) := by
  unfold save_session_data
  by_cases h : (storeFind db sid).isSome
  · rw [if_pos h, storeFind,
      find_replace_of_mem db sid (mkStoredRow d) (by simpa [storeFind] using h)]
    rfl
  · rw [if_neg h, storeFind,
      find_append_single db sid (mkStoredRow d)
        (Option.not_isSome_iff_eq_none.mp (by simpa [storeFind] using h))]
    rfl

/-- C4 theorem: saving a session with a non-empty collar table, non-empty
survey and assay tables and a non-empty trajectory list, then getting the
same id, returns exactly the data that was saved — in particular the
same hole count and hole-id ordering and an identical trajectory
structure. -/
theorem session_roundtrip (db : SessionStore) (sid : String) (d : SessionData)
    (hc : d.collar_df ≠ [])
    (hs : ∃ s, d.survey_df = some s ∧ s ≠ [])
    (ha : ∃ a, d.assays_df = some a ∧ a ≠ [])
    (ht : ∃ t, d.trajectories = some t ∧ t ≠ []) :
    get_session_data (save_session_data db sid d) sid =
      some ⟨some d.collar_df, d.survey_df, d.assays_df, d.trajectories⟩
  ∧ ((get_session_data (save_session_data db sid d) sid).map
      fun r => (r.collar_df.getD []).length) = some d.collar_df.length
  ∧ ((get_session_data (save_session_data db sid d) sid).map
      fun r => (r.collar_df.getD []).map (·.holeid)) = some (d.collar_df.map (·.holeid))
  ∧ ((get_session_data (save_session_data db sid d) sid).map
      fun r => r.trajectories) = some d.trajectories := by
  obtain ⟨s, hs1, hs2⟩ := hs
  obtain ⟨a, ha1, ha2⟩ := ha
  obtain ⟨t, ht1, ht2⟩ := ht
  have hmain : get_session_data (save_session_data db sid d) sid =
      some ⟨some d.collar_df, d.survey_df, d.assays_df, d.trajectories⟩ := by
    rw [get_session_data, storeFind_save]
    simp only [mkStoredRow, serialize_dataframe, hs1, ht1, ha1, Option.map]
    rw [if_neg (by simpa using hc), if_neg (by simpa using hs2),
      if_neg (by simpa using ha2), if_neg (by simpa using ht2)]
  refine ⟨hmain, ?_, ?_, ?_⟩ <;> rw [hmain] <;> simp

/-- C4 witness: a concrete four-hole session round-trips through the
store unchanged. -/
theorem session_roundtrip_witness :
    get_session_data
        (save_session_data []
          "sess-1"
          ⟨[⟨"DH001", 0, 0, 100, some 50, none, none⟩,
            ⟨"DH002", 10, 0, 100, some 50, none, none⟩,
            ⟨"DH003", 20, 0, 100, some 50, none, none⟩,
            ⟨"DH004", 30, 0, 100, some 50, none, none⟩],
           some [⟨"DH001", 10, 45, -60⟩],
           some [⟨"DH001", 0, 5, some "GRANITE", some 1, none⟩],
           some [⟨"DH001", [(0, 0, 100), (0, 0, 50)]⟩]⟩)
        "sess-1" =
      some ⟨some [⟨"DH001", 0, 0, 100, some 50, none, none⟩,
                  ⟨"DH002", 10, 0, 100, some 50, none, none⟩,
                  ⟨"DH003", 20, 0, 100, some 50, none, none⟩,
                  ⟨"DH004", 30, 0, 100, some 50, none, none⟩],
            some [⟨"DH001", 10, 45, -60⟩],
            some [⟨"DH001", 0, 5, some "GRANITE", some 1, none⟩],
            some [⟨"DH001", [(0, 0, 100), (0, 0, 50)]⟩]⟩ :=
  (session_roundtrip [] "sess-1" _
    (by decide)
    ⟨_, rfl, by decide⟩
    ⟨_, rfl, by decide⟩
    ⟨_, rfl, by decide⟩).1
/-! ### List arithmetic helper lemmas -/

theorem sum_map_sub_const {α : Type _} (l : List α) (f : α → ℚ) (c : ℚ) :
    (l.map fun x => f x - c).sum = (l.map f).sum - l.length * c := by
  induction l with
  | nil => simp
  | cons h t ih =>
    simp only [List.map_cons, List.sum_cons, ih, List.length_cons]
    push_cast
    ring

theorem sum_dot (l : List Vec2) (v : Vec2) :
    (l.map fun p => dot p v).sum = (l.map (·.1)).sum * v.1 + (l.map (·.2)).sum * v.2 := by
  induction l with
  | nil => simp
  | cons h t ih =>
    simp only [List.map_cons, List.sum_cons, ih]
    simp only [dot]
    ring

theorem sum_dot_sq (l : List Vec2) (v : Vec2) :
    (l.map fun p => dot p v ^ 2).sum
      = (l.map fun p => p.1 * p.1).sum * v.1 ^ 2
        + 2 * (l.map fun p => p.1 * p.2).sum * (v.1 * v.2)
        + (l.map fun p => p.2 * p.2).sum * v.2 ^ 2 := by
  induction l with
  | nil => simp
  | cons h t ih =>
    simp only [List.map_cons, List.sum_cons, ih]
    simp only [dot]
    ring

theorem centered_sum_fst (coords : List Vec2) (hne : coords ≠ []) :
    ((coords.map fun p => vsub p (centroidOf coords)).map (·.1)).sum = 0 := by
  have hn : ((coords.length : ℚ)) ≠ 0 := by
    intro h
    exact hne (List.length_eq_zero.mp (by exact_mod_cast h))
  rw [List.map_map]
  have hcomp : ((fun (p : Vec2) => p.1) ∘ fun p => vsub p (centroidOf coords))
      = fun p => p.1 - (centroidOf coords).1 := rfl
  rw [hcomp, sum_map_sub_const, centroidOf]
  field_simp

theorem centered_sum_snd (coords : List Vec2) (hne : coords ≠ []) :
    ((coords.map fun p => vsub p (centroidOf coords)).map (·.2)).sum = 0 := by
  have hn : ((coords.length : ℚ)) ≠ 0 := by
    intro h
    exact hne (List.length_eq_zero.mp (by exact_mod_cast h))
  rw [List.map_map]
  have hcomp : ((fun (p : Vec2) => p.2) ∘ fun p => vsub p (centroidOf coords))
      = fun p => p.2 - (centroidOf coords).2 := rfl
  rw [hcomp, sum_map_sub_const, centroidOf]
  field_simp

theorem projections_sum_eq_zero (sel : List Collar) (v : Vec2) (hne : sel ≠ []) :
    (projectionsOf sel v).sum = 0 := by
  have hc : (sel.map fun c => ((c.east, c.north) : Vec2)) ≠ [] := by
    simpa using hne
  rw [projectionsOf, centeredCoords, sum_dot, centered_sum_fst _ hc, centered_sum_snd _ hc]
  ring

theorem sum_pos_of_all_pos (l : List ℚ) (hne : l ≠ []) (h : ∀ x ∈ l, 0 < x) : 0 < l.sum := by
  induction l with
  | nil => exact absurd rfl hne
  | cons a t ih =>
    rcases t with _ | ⟨b, t'⟩
    · simpa using h a (by simp)
    · have := ih (by simp) fun x hx => h x (List.mem_cons_of_mem a hx)
      have ha := h a (by simp)
      simp only [List.sum_cons] at this ⊢
      linarith

theorem sum_neg_of_all_neg (l : List ℚ) (hne : l ≠ []) (h : ∀ x ∈ l, x < 0) : l.sum < 0 := by
  induction l with
  | nil => exact absurd rfl hne
  | cons a t ih =>
    rcases t with _ | ⟨b, t'⟩
    · simpa using h a (by simp)
    · have := ih (by simp) fun x hx => h x (List.mem_cons_of_mem a hx)
      have ha := h a (by simp)
      simp only [List.sum_cons] at this ⊢
      linarith

theorem exists_nonzero_of_sum_sq_pos (l : List ℚ) (h : 0 < (l.map (· ^ 2)).sum) :
    ∃ x ∈ l, x ≠ 0 := by
  by_contra hc
  push_neg at hc
  have hz : (l.map (· ^ 2)).sum = 0 := by
    induction l with
    | nil => simp
    | cons a t ih =>
      simp only [List.map_cons, List.sum_cons]
      rw [hc a (by simp), ih ?ht ?hc2]
      · ring
      case ht =>
        simp only [List.map_cons, List.sum_cons] at h
        rw [hc a (by simp)] at h
        simpa using h
      case hc2 => exact fun x hx => hc x (List.mem_cons_of_mem a hx)
  rw [hz] at h
  exact lt_irrefl 0 h

theorem sum_sq_pair_pos (l : List Vec2) (p0 : Vec2) (h0 : p0 ∈ l) (hne : p0 ≠ (0, 0)) :
    0 < (l.map fun p => p.1 * p.1 + p.2 * p.2).sum := by
  have hnn : ∀ x ∈ l.map (fun p => p.1 * p.1 + p.2 * p.2), 0 ≤ x := by
    intro x hx
    obtain ⟨p, _, rfl⟩ := List.mem_map.mp hx
    nlinarith [mul_self_nonneg p.1, mul_self_nonneg p.2]
  have hmem : p0.1 * p0.1 + p0.2 * p0.2 ∈ l.map (fun p => p.1 * p.1 + p.2 * p.2) :=
    List.mem_map_of_mem _ h0
  have hcoord : p0.1 ≠ 0 ∨ p0.2 ≠ 0 := by
    by_contra hb
    push_neg at hb
    exact hne (Prod.ext hb.1 hb.2)
  have hpos : 0 < p0.1 * p0.1 + p0.2 * p0.2 := by
    rcases hcoord with h1 | h2
    · nlinarith [mul_self_pos.mpr h1, mul_self_nonneg p0.2]
    · nlinarith [mul_self_pos.mpr h2, mul_self_nonneg p0.1]
  calc 0 < p0.1 * p0.1 + p0.2 * p0.2 := hpos
    _ ≤ _ := List.single_le_sum hnn _ hmem

theorem foldl_min_le (l : List ℚ) (a : ℚ) : l.foldl min a ≤ a := by
  induction l generalizing a with
  | nil => simp
  | cons h t ih => exact le_trans (ih (min a h)) (min_le_left a h)

theorem foldl_min_le_mem (l : List ℚ) (a x : ℚ) (hx : x ∈ l) : l.foldl min a ≤ x := by
  induction l generalizing a with
  | nil => cases hx
  | cons h t ih =>
    rcases List.mem_cons.mp hx with rfl | hx2
    · exact le_trans (foldl_min_le t (min a x)) (min_le_right a x)
    · exact ih _ hx2

theorem qListMin_le (l : List ℚ) (x : ℚ) (hx : x ∈ l) : qListMin l ≤ x := by
  cases l with
  | nil => cases hx
  | cons h t =>
    rcases List.mem_cons.mp hx with rfl | hx2
    · exact foldl_min_le t x
    · exact foldl_min_le_mem t h x hx2

theorem le_foldl_max (l : List ℚ) (a : ℚ) : a ≤ l.foldl max a := by
  induction l generalizing a with
  | nil => simp
  | cons h t ih => exact le_trans (le_max_left a h) (ih (max a h))

theorem mem_le_foldl_max (l : List ℚ) (a x : ℚ) (hx : x ∈ l) : x ≤ l.foldl max a := by
  induction l generalizing a with
  | nil => cases hx
  | cons h t ih =>
    rcases List.mem_cons.mp hx with rfl | hx2
    · exact le_trans (le_max_right a x) (le_foldl_max t (max a x))
    · exact ih _ hx2

theorem le_qListMax (l : List ℚ) (x : ℚ) (hx : x ∈ l) : x ≤ qListMax l := by
  cases l with
  | nil => cases hx
  | cons h t =>
    rcases List.mem_cons.mp hx with rfl | hx2
    · exact le_foldl_max t x
    · exact mem_le_foldl_max t h x hx2

theorem sum_map_add {α : Type _} (l : List α) (f g : α → ℚ) :
    (l.map fun x => f x + g x).sum = (l.map f).sum + (l.map g).sum := by
  induction l with
  | nil => simp
  | cons h t ih =>
    simp only [List.map_cons, List.sum_cons, ih]
    ring

theorem lineEndpoints_sqDist (sel : List Collar) (v : Vec2) :
    sqDist (lineEndpoints sel v).1 (lineEndpoints sel v).2
      = ((qListMax (projectionsOf sel v) - qListMin (projectionsOf sel v)) * (6 / 5)) ^ 2
        * (v.1 ^ 2 + v.2 ^ 2) := by
  simp only [lineEndpoints, sqDist, vadd, smul]
  ring

/-- The quadratic form of the projections: their sum of squares equals
`(n − 1)·lam` for the principal eigenpair. -/
theorem projections_sq_sum (sel : List Collar) (lam : ℚ) (v : Vec2)
    (hn1 : ((sel.length : ℚ) - 1) ≠ 0)
    (heig : IsPrincipalEigen (centeredCoords sel) ((sel.length : ℚ)) lam v) :
    ((projectionsOf sel v).map (· ^ 2)).sum = ((sel.length : ℚ) - 1) * lam := by
  obtain ⟨e1, e2, hunit, -⟩ := heig
  simp only [covOf] at e1 e2
  rw [projectionsOf, List.map_map]
  have hcomp : ((fun x => x ^ 2) ∘ fun p => dot p v) = fun p => dot p v ^ 2 := rfl
  rw [hcomp, sum_dot_sq]
  field_simp at e1 e2
  linear_combination v.1 * e1 + v.2 * e2 + ((sel.length : ℚ) - 1) * lam * hunit

end CoreView3D

namespace CoreView3D

/-- Invariant of the summarizer's per-file loop: the accumulated error
list is exactly the filter of the error-carrying records out of the
accumulated summaries. -/
theorem summarizeLoop_errs_eq_filter (mf : Option Nat) (inc : List String)
    (files : List RepoFile) (total : Nat) (res errs : List FileRecord)
    (hinv : errs = res.filter fun fr => fr.error.isSome) :
    (summarizeLoop mf inc files total res errs).2.2
      = (summarizeLoop mf inc files total res errs).2.1.filter fun fr => fr.error.isSome := by
  induction files generalizing total res errs with
  | nil => simpa [summarizeLoop] using hinv
  | cons f rest ih =>
    simp only [summarizeLoop]
    split
    · exact ih _ _ _ hinv
    · split
      · exact ih _ _ _ hinv
      · split
        · simpa using hinv
        · apply ih
          by_cases hi : (summarize_file f.path f.model).error.isSome
          · rw [if_pos hi, hinv, List.filter_append]
            simp [hi]
          · rw [if_neg hi, hinv, List.filter_append]
            simp [hi]

/-- C9: a file whose text fails to parse yields a per-file error record
carrying the message, line and column; the run itself still returns
normally; and the footer's `errors_count` equals the number of per-file
error records accumulated (which are exactly the error-carrying records
among the summaries). -/
theorem summarizer_error_handling (root : String) (files : List RepoFile)
    (mf : Option Nat) (inc : List String) :
    (∀ path msg lineno offset,
        (summarize_file path (.synErr msg lineno offset)).error
          = some ("SyntaxError: " ++ msg ++ " (lineno=" ++ toString lineno ++ ", offset="
              ++ toString offset ++ ")"))
  ∧ (∃ r, summarize_repo true root files mf inc = .ok r)
  ∧ (∀ r, summarize_repo true root files mf inc = .ok r →
      r.meta.errors_count = r.errors.length
      ∧ r.errors = r.summary.filter fun fr => fr.error.isSome) := by
  refine ⟨fun path msg lineno offset => rfl, ⟨_, rfl⟩, ?_⟩
  intro r h
  simp only [summarize_repo] at h
  injection h with h
  subst h
  exact ⟨rfl, summarizeLoop_errs_eq_filter mf inc files 0 [] [] rfl⟩

/-- C9 witness: a two-file run with one syntax-error file returns
normally with `errors_count = 1 = |errors|` and the error record among
the summaries. -/
theorem summarizer_error_handling_witness :
    (summarize_file "bad.py" (.synErr "invalid syntax" 3 7)).error
      = some ("SyntaxError: " ++ "invalid syntax" ++ " (lineno=" ++ toString (3 : Nat)
          ++ ", offset=" ++ toString (7 : Nat) ++ ")")
  ∧ (⟨[⟨"bad.py", some "SyntaxError: invalid syntax (lineno=3, offset=7)", [], [], []⟩,
        ⟨"ok.py", none, [], [], []⟩],
       ⟨"root", 2, 1⟩,
       [⟨"bad.py", some "SyntaxError: invalid syntax (lineno=3, offset=7)", [], [], []⟩]⟩
      : RepoResult).meta.errors_count
    = (⟨[⟨"bad.py", some "SyntaxError: invalid syntax (lineno=3, offset=7)", [], [], []⟩,
        ⟨"ok.py", none, [], [], []⟩],
       ⟨"root", 2, 1⟩,
       [⟨"bad.py", some "SyntaxError: invalid syntax (lineno=3, offset=7)", [], [], []⟩]⟩
      : RepoResult).errors.length := by
  have h := summarizer_error_handling "root"
    [⟨"bad.py", ["bad.py"], .synErr "invalid syntax" 3 7⟩,
     ⟨"ok.py", ["ok.py"], .parsed [] [] []⟩] none []
  exact ⟨h.1 "bad.py" "invalid syntax" 3 7,
    (h.2.2 ⟨[⟨"bad.py", some "SyntaxError: invalid syntax (lineno=3, offset=7)", [], [], []⟩,
        ⟨"ok.py", none, [], [], []⟩],
       ⟨"root", 2, 1⟩,
       [⟨"bad.py", some "SyntaxError: invalid syntax (lineno=3, offset=7)", [], [], []⟩]⟩
      (by decide)).1⟩

/-- Inversion of a successful `calculate_cross_section` run: the
returned hole list is the included collars mapped to entries, and the
bounds are the min/max of the per-hole along-line distances and of the
flattened trace elevations. -/
theorem cross_section_ok_inv (N : NumLib) (collar_df : List Collar)
    (survey_df : Option (List SurveyRow)) (assays_df : Option (List AssayRow))
    (hole_ids : Option (List String)) (A B : Vec2) (t : ℚ) (r : SectionResult)
    (h : calculate_cross_section N collar_df survey_df assays_df hole_ids A B t = .ok r) :
    r.drillholes = (includedHoles N collar_df survey_df hole_ids A B t).map
      (mkEntry N survey_df assays_df A B)
  ∧ r.bounds = ⟨qListMin (r.drillholes.map (·.distance_along_line)),
      qListMax (r.drillholes.map (·.distance_along_line)),
      qListMin ((r.drillholes.map fun e => e.trace.map (·.y_elevation)).flatten),
      qListMax ((r.drillholes.map fun e => e.trace.map (·.y_elevation)).flatten)⟩ := by
  simp only [calculate_cross_section] at h
  split at h
  · exact absurd h (by simp)
  · split at h
    · exact absurd h (by simp)
    · injection h with h
      subst h
      exact ⟨rfl, rfl⟩

/-- C6: at a larger tolerance the included collar set grows — the
smaller-tolerance selection is a sublist (hence a subset) of the
larger-tolerance selection, and for any two successful runs the
hole count is monotonically non-decreasing in tolerance. -/
theorem cross_section_tolerance_mono (N : NumLib) (collar_df : List Collar)
    (survey_df : Option (List SurveyRow)) (assays_df : Option (List AssayRow))
    (hole_ids : Option (List String)) (A B : Vec2) (t1 t2 : ℚ) (h : t1 ≤ t2) :
    (includedHoles N collar_df survey_df hole_ids A B t1).Sublist
      (includedHoles N collar_df survey_df hole_ids A B t2)
  ∧ (∀ c ∈ includedHoles N collar_df survey_df hole_ids A B t1,
      c ∈ includedHoles N collar_df survey_df hole_ids A B t2)
  ∧ (∀ r1 r2, calculate_cross_section N collar_df survey_df assays_df hole_ids A B t1 = .ok r1 →
      calculate_cross_section N collar_df survey_df assays_df hole_ids A B t2 = .ok r2 →
      r1.drillholes.length ≤ r2.drillholes.length) := by
  have hsub : (includedHoles N collar_df survey_df hole_ids A B t1).Sublist
      (includedHoles N collar_df survey_df hole_ids A B t2) := by
    unfold includedHoles
    apply List.monotone_filter_right
    intro c hc
    unfold holePasses at hc ⊢
    rw [Bool.and_eq_true] at hc ⊢
    obtain ⟨hc1, hc2⟩ := hc
    exact ⟨decide_eq_true (le_trans (of_decide_eq_true hc1) h), hc2⟩
  refine ⟨hsub, fun c hc => hsub.subset hc, ?_⟩
  intro r1 r2 h1 h2
  rw [(cross_section_ok_inv N collar_df survey_df assays_df hole_ids A B t1 r1 h1).1,
    (cross_section_ok_inv N collar_df survey_df assays_df hole_ids A B t2 r2 h2).1]
  simp only [List.length_map]
  exact hsub.length_le

/-- C6 witness: at a concrete one-hole input the 50 m selection is a
sublist of the 150 m selection. -/
theorem cross_section_tolerance_mono_witness :
    (includedHoles sampleLib [⟨"DH001", 0, 0, 0, some 50, none, none⟩]
        (some [⟨"DH001", 10, 90, 0⟩]) none ((0 : ℚ), (0 : ℚ)) ((100 : ℚ), (0 : ℚ)) 50).Sublist
      (includedHoles sampleLib [⟨"DH001", 0, 0, 0, some 50, none, none⟩]
        (some [⟨"DH001", 10, 90, 0⟩]) none ((0 : ℚ), (0 : ℚ)) ((100 : ℚ), (0 : ℚ)) 150) :=
  (cross_section_tolerance_mono sampleLib [⟨"DH001", 0, 0, 0, some 50, none, none⟩]
    (some [⟨"DH001", 10, 90, 0⟩]) none none ((0 : ℚ), (0 : ℚ)) ((100 : ℚ), (0 : ℚ)) 50 150
    (by norm_num)).1

/-- C7 counterexample: a hole whose survey deviates 10 m along the
section line.  The code's `all_distances` collects only each hole's
collar `distance_along_line` (here 0), so `bounds.max_distance = 0`,
while the maximum along-line distance over every trace point is 10 —
the claim that min/max distance range over all trace points is false. -/
theorem cross_section_bounds_counterexample :
    calculate_cross_section sampleLib [⟨"DH001", 0, 0, 0, some 50, none, none⟩]
        (some [⟨"DH001", 10, 90, 0⟩]) none none ((0 : ℚ), (0 : ℚ)) ((100 : ℚ), (0 : ℚ)) 100
      = .ok ⟨⟨(0, 0), (100, 0), (1, 0), 100, 0⟩,
             [⟨"DH001", 0, 0, 0, [⟨0, 0, 0⟩, ⟨10, 10, 0⟩], none⟩],
             ⟨0, 0, 0, 0⟩⟩
  ∧ (⟨0, 0, 0, 0⟩ : SectionBounds).max_distance = 0
  ∧ qListMax (([⟨"DH001", 0, 0, 0, [⟨0, 0, 0⟩, ⟨10, 10, 0⟩], none⟩] : List DrillholeEntry).map
      (fun e => e.trace.map (·.x_along_section))).flatten = 10
  ∧ (0 : ℚ) ≠ 10 := by
  refine ⟨?_, rfl, by norm_num [qListMax], by norm_num⟩
  norm_num [calculate_cross_section, includedHoles, workingDf, holePasses, mkEntry,
    distanceFrom, distanceAlong, directionNorm, calculate_hole_trace, sortBy, insortBy,
    get_hole_intervals, sampleLib, vsub, vadd, smul, dot, qListMin, qListMax, List.filter]

/-- C7 (amended): for every successful cross-section computation,
`min_distance`/`max_distance` are the minimum/maximum of the included
holes' collar along-line distances (one value per hole, not per trace
point), while `min_elevation`/`max_elevation` are taken over all trace
points of all included holes. -/
theorem cross_section_bounds_spec (N : NumLib) (collar_df : List Collar)
    (survey_df : Option (List SurveyRow)) (assays_df : Option (List AssayRow))
    (hole_ids : Option (List String)) (A B : Vec2) (t : ℚ) (r : SectionResult)
    (h : calculate_cross_section N collar_df survey_df assays_df hole_ids A B t = .ok r) :
    r.bounds.min_distance = qListMin (r.drillholes.map (·.distance_along_line))
  ∧ r.bounds.max_distance = qListMax (r.drillholes.map (·.distance_along_line))
  ∧ r.bounds.min_elevation
      = qListMin ((r.drillholes.map fun e => e.trace.map (·.y_elevation)).flatten)
  ∧ r.bounds.max_elevation
      = qListMax ((r.drillholes.map fun e => e.trace.map (·.y_elevation)).flatten) := by
  have hb := (cross_section_ok_inv N collar_df survey_df assays_df hole_ids A B t r h).2
  rw [hb]
  exact ⟨rfl, rfl, rfl, rfl⟩

/-- C7 witness: the amended bounds law evaluated at the concrete
deviated-hole input. -/
theorem cross_section_bounds_spec_witness :
    ((⟨⟨(0, 0), (100, 0), (1, 0), 100, 0⟩,
       [⟨"DH001", 0, 0, 0, [⟨0, 0, 0⟩, ⟨10, 10, 0⟩], none⟩],
       ⟨0, 0, 0, 0⟩⟩ : SectionResult)).bounds.min_distance
      = qListMin (((⟨⟨(0, 0), (100, 0), (1, 0), 100, 0⟩,
          [⟨"DH001", 0, 0, 0, [⟨0, 0, 0⟩, ⟨10, 10, 0⟩], none⟩],
          ⟨0, 0, 0, 0⟩⟩ : SectionResult)).drillholes.map (·.distance_along_line)) :=
  (cross_section_bounds_spec sampleLib [⟨"DH001", 0, 0, 0, some 50, none, none⟩]
    (some [⟨"DH001", 10, 90, 0⟩]) none none ((0 : ℚ), (0 : ℚ)) ((100 : ℚ), (0 : ℚ)) 100
    ⟨⟨(0, 0), (100, 0), (1, 0), 100, 0⟩,
     [⟨"DH001", 0, 0, 0, [⟨0, 0, 0⟩, ⟨10, 10, 0⟩], none⟩],
     ⟨0, 0, 0, 0⟩⟩
    (by norm_num [calculate_cross_section, includedHoles, workingDf, holePasses, mkEntry,
      distanceFrom, distanceAlong, directionNorm, calculate_hole_trace, sortBy, insortBy,
      get_hole_intervals, sampleLib, vsub, vadd, smul, dot, qListMin, qListMax,
      List.filter])).1

/-- C10: an empty `hole_ids` list is Python-falsy, so the call behaves
exactly like passing no filter at all — every collar row within
tolerance (with its always non-empty trace) is included, instead of an
empty selection failing with "no drillholes found within tolerance". -/
theorem cross_section_empty_ids_no_filter (N : NumLib) (collar_df : List Collar)
    (survey_df : Option (List SurveyRow)) (assays_df : Option (List AssayRow))
    (A B : Vec2) (t : ℚ) :
    calculate_cross_section N collar_df survey_df assays_df (some []) A B t
      = calculate_cross_section N collar_df survey_df assays_df none A B t
  ∧ includedHoles N collar_df survey_df (some []) A B t
      = collar_df.filter (holePasses N survey_df A B t) := ⟨rfl, rfl⟩

/-- C5 counterexample: two matched collars that share the same 2D
coordinate.  The covariance matrix is zero, `np.linalg.eig` returns
eigenvalues `[0, 0]` with eigenvector `(1, 0)` for the argmax index, the
projections all vanish, and the function returns the centroid twice —
two identical points at separation 0, refuting the claim that at least
2 matching rows always produce two distinct points with positive
separation. -/
theorem calculate_line_coincident_collars :
    calculate_line_from_holes
        [⟨"DH001", 5, 6, 100, none, none, none⟩, ⟨"DH002", 5, 6, 100, none, none, none⟩]
        ["DH001", "DH002"] 0 (1, 0)
      = .ok ((5, 6), (5, 6))
  ∧ (selectedCollars
        [⟨"DH001", 5, 6, 100, none, none, none⟩, ⟨"DH002", 5, 6, 100, none, none, none⟩]
        ["DH001", "DH002"]).length = 2
  ∧ IsPrincipalEigen
      (centeredCoords (selectedCollars
        [⟨"DH001", 5, 6, 100, none, none, none⟩, ⟨"DH002", 5, 6, 100, none, none, none⟩]
        ["DH001", "DH002"]))
      2 0 (1, 0)
  ∧ sqDist (5, 6) (5, 6) = 0 := by
  refine ⟨?_, by decide, ?_, ?_⟩
  · norm_num [calculate_line_from_holes, selectedCollars, lineEndpoints, projectionsOf,
      centeredCoords, centroidOf, qListMin, qListMax, vsub, vadd, smul, dot, List.filter]
  · norm_num [IsPrincipalEigen, covOf, centeredCoords, centroidOf, vsub, selectedCollars,
      List.filter]
  · norm_num [sqDist]

/-- C5 (amended): fewer than 2 matching collar rows (including zero)
yields the need-at-least-2-holes failure; when at least 2 collar rows
match and at least two of them have distinct 2D coordinates, the
function returns two distinct points with strictly positive (squared)
separation.  `lam`/`v` are constrained to be the unit principal
eigenpair of the sample covariance of the matched coordinates, which is
what `np.linalg.eig` + `argmax` supply at runtime. -/
theorem calculate_line_from_holes_spec
    (collar_df : List Collar) (hole_ids : List String) (lam : ℚ) (v : Vec2) :
    ((selectedCollars collar_df hole_ids).length < 2 →
      calculate_line_from_holes collar_df hole_ids lam v
        = .error (.needTwoHoles (selectedCollars collar_df hole_ids).length))
  ∧ (2 ≤ (selectedCollars collar_df hole_ids).length →
      (∃ c1 ∈ selectedCollars collar_df hole_ids, ∃ c2 ∈ selectedCollars collar_df hole_ids,
          ((c1.east, c1.north) : Vec2) ≠ (c2.east, c2.north)) →
      IsPrincipalEigen (centeredCoords (selectedCollars collar_df hole_ids))
        ((selectedCollars collar_df hole_ids).length : ℚ) lam v →
      ∃ A B, calculate_line_from_holes collar_df hole_ids lam v = .ok (A, B)
        ∧ A ≠ B ∧ 0 < sqDist A B) := by
  constructor
  · intro h
    simp only [calculate_line_from_holes]
    rw [if_pos h]
  · intro h2 hdist heig
    set sel := selectedCollars collar_df hole_ids with hsel
    have hfn : calculate_line_from_holes collar_df hole_ids lam v
        = .ok (lineEndpoints sel v) := by
      simp only [calculate_line_from_holes]
      rw [if_neg (not_lt.mpr h2)]
    have hselne : sel ≠ [] := by
      intro hnil
      rw [hnil] at h2
      simp at h2
    have hcast2 : (2 : ℚ) ≤ (sel.length : ℚ) := by exact_mod_cast h2
    have hn1 : (0 : ℚ) < (sel.length : ℚ) - 1 := by linarith
    have hn1ne : ((sel.length : ℚ) - 1) ≠ 0 := ne_of_gt hn1
    have hprojlen : (projectionsOf sel v).length = sel.length := by
      simp [projectionsOf, centeredCoords]
    have hprojne : projectionsOf sel v ≠ [] := by
      intro hnil
      rw [hnil] at hprojlen
      rw [← hprojlen] at h2
      simp at h2
    obtain ⟨c1, hc1, c2, hc2, hcne⟩ := hdist
    have hcoordmem1 : ((c1.east, c1.north) : Vec2) ∈ sel.map (fun c => ((c.east, c.north) : Vec2)) :=
      List.mem_map_of_mem _ hc1
    have hcoordmem2 : ((c2.east, c2.north) : Vec2) ∈ sel.map (fun c => ((c.east, c.north) : Vec2)) :=
      List.mem_map_of_mem _ hc2
    have hcent1 : vsub (c1.east, c1.north) (centroidOf (sel.map fun c => ((c.east, c.north) : Vec2)))
        ∈ centeredCoords sel := by
      rw [centeredCoords]
      exact List.mem_map_of_mem _ hcoordmem1
    have hcent2 : vsub (c2.east, c2.north) (centroidOf (sel.map fun c => ((c.east, c.north) : Vec2)))
        ∈ centeredCoords sel := by
      rw [centeredCoords]
      exact List.mem_map_of_mem _ hcoordmem2
    have hvsub_zero : ∀ p q : Vec2, vsub p q = (0, 0) → p = q := by
      intro p q hpq
      have h1 : p.1 - q.1 = 0 := congrArg Prod.fst hpq
      have h2' : p.2 - q.2 = 0 := congrArg Prod.snd hpq
      exact Prod.ext (by linarith) (by linarith)
    have hnz : ∃ p0 ∈ centeredCoords sel, p0 ≠ (0, 0) := by
      by_contra hb
      push_neg at hb
      have hz1 := hb _ hcent1
      have hz2 := hb _ hcent2
      exact hcne ((hvsub_zero _ _ hz1).trans (hvsub_zero _ _ hz2).symm)
    obtain ⟨p0, hp0mem, hp0ne⟩ := hnz
    have htrpos : 0 < ((centeredCoords sel).map fun p => p.1 * p.1).sum
        + ((centeredCoords sel).map fun p => p.2 * p.2).sum := by
      rw [← sum_map_add]
      exact sum_sq_pair_pos _ p0 hp0mem hp0ne
    have hlam : 0 < lam := by
      obtain ⟨-, -, -, htr⟩ := heig
      simp only [covOf] at htr
      rw [div_add_div_same] at htr
      have hq : 0 < (((centeredCoords sel).map fun p => p.1 * p.1).sum
          + ((centeredCoords sel).map fun p => p.2 * p.2).sum) / ((sel.length : ℚ) - 1) :=
        div_pos htrpos hn1
      linarith
    have hsq := projections_sq_sum sel lam v hn1ne heig
    have hsqpos : 0 < ((projectionsOf sel v).map (· ^ 2)).sum := by
      rw [hsq]
      exact mul_pos hn1 hlam
    obtain ⟨q0, hq0mem, hq0ne⟩ := exists_nonzero_of_sum_sq_pos _ hsqpos
    have hsum0 := projections_sum_eq_zero sel v hselne
    have hdelta : 0 < qListMax (projectionsOf sel v) - qListMin (projectionsOf sel v) := by
      rcases lt_or_gt_of_ne hq0ne with hneg | hpos
      · have hminle := qListMin_le _ _ hq0mem
        have hq : ∃ r ∈ projectionsOf sel v, 0 ≤ r := by
          by_contra hcon
          push_neg at hcon
          have := sum_neg_of_all_neg _ hprojne hcon
          rw [hsum0] at this
          exact lt_irrefl 0 this
        obtain ⟨r, hrm, hr0⟩ := hq
        have := le_qListMax _ _ hrm
        linarith
      · have hmaxle := le_qListMax _ _ hq0mem
        have hq : ∃ r ∈ projectionsOf sel v, r ≤ 0 := by
          by_contra hcon
          push_neg at hcon
          have := sum_pos_of_all_pos _ hprojne hcon
          rw [hsum0] at this
          exact lt_irrefl 0 this
        obtain ⟨r, hrm, hr0⟩ := hq
        have := qListMin_le _ _ hrm
        linarith
    have hunit : v.1 ^ 2 + v.2 ^ 2 = 1 := heig.2.2.1
    have hsd := lineEndpoints_sqDist sel v
    rw [hunit, mul_one] at hsd
    have hsdpos : 0 < sqDist (lineEndpoints sel v).1 (lineEndpoints sel v).2 := by
      rw [hsd]
      have hpos : 0 < (qListMax (projectionsOf sel v) - qListMin (projectionsOf sel v)) * (6 / 5) :=
        mul_pos hdelta (by norm_num)
      exact pow_pos hpos 2
    refine ⟨(lineEndpoints sel v).1, (lineEndpoints sel v).2, ?_, ?_, hsdpos⟩
    · rw [hfn]
    · intro hAB
      rw [hAB] at hsdpos
      simp [sqDist, sub_self] at hsdpos

/-- C5 witness: two collars two metres apart produce a concrete line
with distinct endpoints. -/
theorem calculate_line_from_holes_witness :
    ∃ A B, calculate_line_from_holes
        [⟨"DH001", 0, 0, 100, none, none, none⟩, ⟨"DH002", 2, 0, 100, none, none, none⟩]
        ["DH001", "DH002"] 2 (1, 0) = .ok (A, B) ∧ A ≠ B ∧ 0 < sqDist A B :=
  (calculate_line_from_holes_spec
      [⟨"DH001", 0, 0, 100, none, none, none⟩, ⟨"DH002", 2, 0, 100, none, none, none⟩]
      ["DH001", "DH002"] 2 (1, 0)).2 (by decide)
    ⟨⟨"DH001", 0, 0, 100, none, none, none⟩, by decide,
     ⟨"DH002", 2, 0, 100, none, none, none⟩, by decide, by decide⟩
    (by norm_num [IsPrincipalEigen, covOf, centeredCoords, centroidOf, vsub, selectedCollars,
      List.filter])

/-- C3: with no survey rows, the single-hole trajectory is exactly the
collar point followed by one toe point whose offset is
`(md·sin incl·sin az, md·sin incl·cos az, −md·cos incl)` for
`incl = dip` when `dip ≥ 0`, `incl = 180 + dip` when `dip < 0`, with
defaults azimuth 0, dip −90 and max depth 100 when the fields are
absent. -/
theorem single_trajectory_no_survey (T : Trig) (collar : Collar) :
    calculate_single_trajectory T collar none =
      (let az := collar.azimuth.getD 0
       let dip := collar.dip.getD (-90)
       let incl := if 0 ≤ dip then dip else 180 + dip
       let md := collar.max_depth.getD 100
       [(collar.east, collar.north, collar.elev),
        (collar.east + md * T.sin (T.radians incl) * T.sin (T.radians az),
         collar.north + md * T.sin (T.radians incl) * T.cos (T.radians az),
         collar.elev - md * T.cos (T.radians incl))]) := by
  by_cases h : 0 ≤ collar.dip.getD (-90) <;>
    simp [calculate_single_trajectory, h, neg_mul, sub_eq_add_neg]

/-- C8: the source request model places no bound on `tolerance` — a fully
populated request with tolerance 0.5 (or 2000) validates successfully,
although the claim (and `test_models.py::`
`test_cross_section_request_tolerance_validation`) requires both to be
rejected; only the default of 100.0 for an omitted tolerance holds. -/
theorem cross_section_request_tolerance_unbounded :
    (mkCrossSectionRequest
        ⟨some "test-123", some (0, 0), some (100, 100), some ["DH001"], some (1/2)⟩).map
        (·.tolerance) = .ok (1/2)
  ∧ (mkCrossSectionRequest
        ⟨some "test-123", some (0, 0), some (100, 100), some ["DH001"], some 2000⟩).map
        (·.tolerance) = .ok 2000
  ∧ (mkCrossSectionRequest
        ⟨some "test-123", some (0, 0), some (100, 100), some ["DH001"], none⟩).map
        (·.tolerance) = .ok 100 := by
  refine ⟨rfl, rfl, rfl⟩

end CoreView3D

namespace CoreView3D

/-- C1: parsing a collar table whose headers are the fully upper-cased
canonical spellings `HOLEID/EAST/NORTH/ELEV` fails (the collar synonym
table has no entry for `east`/`north`, and its canonical names are
`Hole_ID`/`East`/`North`/`Elevation`), and even a successful parse of the
`Hole_ID/East/North/Elevation` spelling does not yield the
`HOLEID/EAST/NORTH/ELEV` column names the claim requires.  This
contradicts the repository's own tests
(`test_parser.py::test_collar_all_uppercase` and the `HOLEID ∈ columns`
assertions throughout that file). -/
theorem parse_collar_canonical_headers_diverge :
  parse_collar ⟨["HOLEID", "EAST", "NORTH", "ELEV"],
      [[.str "DH001", .num 500100, .num 6000100, .num 1250]]⟩
    = .error (.missingColumns ["East", "North"] ["Hole_ID", "EAST", "NORTH", "Elevation"])
  ∧ (parse_collar ⟨["Hole_ID", "East", "North", "Elevation"],
      [[.str "DH001", .num 500100, .num 6000100, .num 1250]]⟩).map DF.cols
    = .ok ["Hole_ID", "East", "North", "Elevation", "Max_Depth", "Azimuth", "Dip"] := by
  constructor <;> decide

/-- C2: a collar table with one non-numeric East value among otherwise
valid rows makes `parse_collar` fail outright (the NaN check raises)
instead of dropping the offending row, while the Excel sibling path
(`_find_and_parse_collar`) drops the row and fails with an empty-data
error only when every row is dropped — the behaviour the claim (and
`test_parser.py::test_parser_handles_nan`) describes. -/
theorem parse_collar_nonnumeric_row_fatal :
  parse_collar ⟨["Hole_ID", "East", "North", "Elevation"],
      [[.str "DH001", .num 500100, .num 6000100, .num 1250],
       [.str "DH002", .str "abc", .num 6000200, .num 1245],
       [.str "DH003", .num 500300, .num 6000300, .num 1240]]⟩
    = .error (.nonNumeric [("East", 1)])
  ∧ excel_clean_collar
      [⟨.str "DH001", .num 500100, .num 6000100, .num 1250⟩,
       ⟨.str "DH002", .str "abc", .num 6000200, .num 1245⟩,
       ⟨.str "DH003", .num 500300, .num 6000300, .num 1240⟩]
    = .ok [("DH001", 500100, 6000100, 1250), ("DH003", 500300, 6000300, 1240)]
  ∧ excel_clean_collar [⟨.str "DH002", .str "abc", .num 6000200, .num 1245⟩]
    = .error .emptyCollarAfterCleaning := by
  refine ⟨?_, ?_, ?_⟩ <;> decide

end CoreView3D
